import Mathlib

set_option maxRecDepth 8000

/-!
Shallow embedding of `pytranscoder/media.py`.

The file models, directly from the Python source:
* the track descriptors `AudioTrack` and `SubtitleTrack`;
* `MediaInfo` (an invalid `MediaInfo` carries no fields, so it is modelled as
  `Option MediaData`, mirroring `__init__(info: Optional[Dict])`);
* the stream mapper `_map_audio_streams` / `_map_subtitle_streams` /
  `ffmpeg_streams`;
* the predicate evaluator `eval_numeric` (Python exceptions become `Except`,
  console output becomes an explicit list of printed lines);
* the probe parser `parse_details` together with executable models of the four
  regular expressions `video_dur`, `video_info`, `audio_info`, `subtitle_info`.

Machine integers are modelled as `Nat`/`Int` (Python integers are unbounded),
Python floats as `Rat`.
-/

namespace Transcoder

/-- `class AudioTrack`: built from the regex group dictionary.  The `default`
field stores the raw value of the regex group `(?P<default>\(default\))?`,
i.e. `some "(default)"` when the marker is present and `none` otherwise
(`adict["default"]` in Python). -/
structure AudioTrack where
  track : String
  lang : String
  format : String
  default : Option String
deriving DecidableEq

/-- `AudioTrack.track_id` property: `return self.track`. -/
def AudioTrack.track_id (t : AudioTrack) : String := t.track

/-- `AudioTrack.language` property: `return self.lang`. -/
def AudioTrack.language (t : AudioTrack) : String := t.lang

/-- `AudioTrack.codec` property: its Python body is `return self.codec`, which
re-enters the same property.  The self-call is modelled with explicit fuel;
exhausted fuel (`none`) corresponds to Python's `RecursionError`. -/
def AudioTrack.codec : AudioTrack → Nat → Option String
  | _, 0 => none
  | t, n + 1 => AudioTrack.codec t n

/-- `AudioTrack.is_default` property: `return self.default == "default"`.
(Note: the parser stores `"(default)"`, with parentheses, in the field.) -/
def AudioTrack.is_default (t : AudioTrack) : Bool := t.default == some "default"

/-- `class SubtitleTrack`. -/
structure SubtitleTrack where
  track : String
  lang : String
deriving DecidableEq

/-- `SubtitleTrack.track_id` property. -/
def SubtitleTrack.track_id (t : SubtitleTrack) : String := t.track

/-- `SubtitleTrack.language` property. -/
def SubtitleTrack.language (t : SubtitleTrack) : String := t.lang

/-- The fields a *valid* `MediaInfo` carries (`MediaInfo.__init__` when
`info is not None`). -/
structure MediaData where
  path : String
  vcodec : String
  stream : String
  res_height : Int
  res_width : Int
  runtime : Int
  filesize_mb : Rat
  fps : Int
  colorspace : String
  audio : List AudioTrack
  subtitle : List SubtitleTrack
deriving DecidableEq

/-- `MediaInfo`: `self.valid = info is not None; if not self.valid: return`.
An invalid `MediaInfo` has no other attribute at all, so it is exactly
`Option MediaData` (`none` = invalid). -/
abbrev MediaInfo := Option MediaData

namespace MediaInfo

/-- `self.valid`. -/
def valid (m : MediaInfo) : Bool := m.isSome

/-- The stream-selection tokens `['-map', f'0:{s.track_id}']` emitted for a
list of already-kept audio tracks, in order. -/
def selTokens : List AudioTrack → List String
  | [] => []
  | s :: rest => "-map" :: ("0:" ++ s.track) :: selTokens rest

/-- Same for subtitle tracks. -/
def selTokensSub : List SubtitleTrack → List String
  | [] => []
  | s :: rest => "-map" :: ("0:" ++ s.track) :: selTokensSub rest

/-- The include-filter test of the per-track loop:
`includes is not None and stream_lang not in includes`. -/
def inclDrop (includes : Option (List String)) (lang : String) : Bool :=
  match includes with
  | none => false
  | some l => !(l.contains lang)

/-- The audio per-track loop of `_map_audio_streams`.  Returns
(`mapped`, `seq_list`, `default_reassign`): the kept tracks, the selection
tokens accumulated so far, and whether a default track was dropped. -/
def audioLoop (includes : Option (List String)) (excludes : List String) :
    List AudioTrack → List AudioTrack × List String × Bool
  | [] => ([], [], false)
  | s :: rest =>
    let r := audioLoop includes excludes rest
    if inclDrop includes s.lang then
      (r.1, r.2.1, s.is_default || r.2.2)
    else if excludes.contains s.lang then
      (r.1, r.2.1, s.is_default || r.2.2)
    else
      (s :: r.1, "-map" :: ("0:" ++ s.track) :: r.2.1, r.2.2)

/-- The reassignment loop
`for i, s in enumerate(mapped): if s.lang == defl: seq_list.append(...)`.
Note the Python loop has no `break`: it appends one
`['-disposition:a:{i}', 'default']` pair for *every* match. -/
def dispoLoop (defl : String) : Nat → List AudioTrack → List String
  | _, [] => []
  | i, s :: rest =>
    if s.lang = defl then
      ("-disposition:a:" ++ toString i) :: "default" :: dispoLoop defl (i + 1) rest
    else
      dispoLoop defl (i + 1) rest

/-- `if not includes: includes = None` (Python falsy: `None` or `[]`). -/
def normIncludes : Option (List String) → Option (List String)
  | some (x :: xs) => some (x :: xs)
  | _ => none

/-- `MediaInfo._map_audio_streams(streams, excludes, includes, defl)`.
Returns the token list together with the lines printed to the console. -/
def map_audio_streams (streams : List AudioTrack) (excludes : Option (List String))
    (includes : Option (List String)) (defl : Option String) :
    List String × List String :=
  let excl := excludes.getD []          -- if excludes is None: excludes = []
  let incl := normIncludes includes     -- if not includes: includes = None
  let r := audioLoop incl excl streams
  if r.2.2 then
    match defl with
    | none =>
      (r.2.1,
       ["Warning: A default stream will be removed but no default language specified to replace it"])
    | some d => (r.2.1 ++ dispoLoop d 0 r.1, [])
  else (r.2.1, [])

/-- The subtitle per-track loop of `_map_subtitle_streams` (no default
handling).  Returns (`mapped`, `seq_list`). -/
def subLoop (includes : Option (List String)) (excludes : List String) :
    List SubtitleTrack → List SubtitleTrack × List String
  | [] => ([], [])
  | s :: rest =>
    let r := subLoop includes excludes rest
    if inclDrop includes s.lang then r
    else if excludes.contains s.lang then r
    else (s :: r.1, "-map" :: ("0:" ++ s.track) :: r.2)

/-- `MediaInfo._map_subtitle_streams(streams, excludes, includes, defl)`
(`defl` is accepted and ignored, as in the source). -/
def map_subtitle_streams (streams : List SubtitleTrack) (excludes : Option (List String))
    (includes : Option (List String)) (_defl : Option String) : List String :=
  let excl := excludes.getD []
  let incl := normIncludes includes
  (subLoop incl excl streams).2

end MediaInfo

/-- The profile interface consumed by `ffmpeg_streams`: the four language
lists and the two optional default languages.  `excluded_*` may be `None`
(the code checks for it); `included_*` are lists (the code applies `len`
to them directly). -/
structure Profile where
  excluded_audio : Option (List String)
  excluded_subtitles : Option (List String)
  included_audio : List String
  included_subtitles : List String
  default_audio : Option String
  default_subtitle : Option String

namespace MediaInfo

/-- `MediaInfo.ffmpeg_streams(profile)`.  Defined on the data of a valid
`MediaInfo` (on an invalid one the Python method would fail reading
`self.stream`; `valid` is a mandatory precondition for callers).
Returns the token list and the printed lines. -/
def ffmpeg_streams (m : MediaData) (profile : Profile) : List String × List String :=
  let excl_audio := profile.excluded_audio.getD []        -- if ... is None: ... = []
  let excl_subtitle := profile.excluded_subtitles.getD []
  let incl_audio := profile.included_audio
  let incl_subtitle := profile.included_subtitles
  if incl_audio.length = 0 ∧ excl_audio.length = 0 ∧
      incl_subtitle.length = 0 ∧ excl_subtitle.length = 0 then
    (["-map", "0"], [])
  else
    let a := map_audio_streams m.audio (some excl_audio) (some incl_audio) profile.default_audio
    let s := map_subtitle_streams m.subtitle (some excl_subtitle) (some incl_subtitle)
      profile.default_subtitle
    ("-map" :: ("0:" ++ m.stream) :: (a.1 ++ s), a.2)

end MediaInfo

/-! ## Predicate evaluator (`MediaInfo.eval_numeric`)

The Python method looks the attribute up in `self.__dict__`, builds a small
textual Python expression and runs `eval` on it.  The embedding keeps the
structure: `PyVal` is the value found in `__dict__`, the three expression
shapes (`lo <= attr <= hi`, `attr == v`, `attr < v` / `attr > v`) are
evaluated by interpreters that model what `eval` does on the interpolated
text.  A raised Python exception becomes `Except.error`; `NameError` and
`SyntaxError` coming out of `eval` (a non-numeric operand or a non-numeric
interpolated attribute) are collapsed into the single constructor
`PyErr.evalError` — no claim distinguishes them.  The chained comparison
`a <= b <= c` is evaluated non-lazily here (Python would skip a `NameError`
in `c` when `a <= b` is already false; no claim reaches that corner). -/

/-- Python exceptions that `eval_numeric` can raise. -/
inductive PyErr where
  | valueError (s : String)
  | indexError
  | evalError
deriving DecidableEq

instance : DecidableEq (Except PyErr Bool) := fun a b =>
  match a, b with
  | .ok x, .ok y =>
    if h : x = y then isTrue (by rw [h]) else isFalse (fun hh => h (Except.ok.inj hh))
  | .error x, .error y =>
    if h : x = y then isTrue (by rw [h]) else isFalse (fun hh => h (Except.error.inj hh))
  | .ok _, .error _ => isFalse (fun hh => Except.noConfusion hh)
  | .error _, .ok _ => isFalse (fun hh => Except.noConfusion hh)

/-- A value stored in `MediaInfo.__dict__`. -/
inductive PyVal where
  | vBool (b : Bool)
  | vInt (n : Int)
  | vFloat (q : Rat)
  | vStr (s : String)
  | vAudio (l : List AudioTrack)
  | vSub (l : List SubtitleTrack)
deriving DecidableEq

/-- The numeric view `eval` has of an interpolated attribute: Python `bool`
is an `int` (`True == 1`), `int` and `float` are numbers; a `str` or a list
interpolates to text that does not evaluate to a number. -/
def attrNum : PyVal → Option Rat
  | .vBool b => some (if b then 1 else 0)
  | .vInt n => some n
  | .vFloat q => some q
  | .vStr _ => none
  | .vAudio _ => none
  | .vSub _ => none

/-- Textual representation used when a `PyVal` is interpolated into the
verbose diagnostic line (float and list `repr`s are abbreviated — only the
shape of the line matters to the spec). -/
def pyRepr : PyVal → String
  | .vBool true => "True"
  | .vBool false => "False"
  | .vInt n => toString n
  | .vFloat q => toString q
  | .vStr s => s
  | .vAudio _ => "[...]"
  | .vSub _ => "[...]"

/-- `\d`-style ASCII digit test. -/
def isDigitC (c : Char) : Bool := c.isDigit

/-- Python whitespace (`str.strip` / `int()` argument stripping), newline
included. -/
def isSpaceC (c : Char) : Bool :=
  c = ' ' || c = '\t' || c = '\n' || c = '\r' || c = '\x0b' || c = '\x0c'

/-- Value of a nonempty digit string. -/
def digitsToNat (cs : List Char) : Nat :=
  cs.foldl (fun n c => 10 * n + (c.toNat - '0'.toNat)) 0

/-- Strip leading whitespace. -/
def stripWsL : List Char → List Char
  | [] => []
  | c :: rest => if isSpaceC c then stripWsL rest else c :: rest

/-- Strip whitespace on both sides. -/
def stripWs (cs : List Char) : List Char :=
  (stripWsL ((stripWsL cs).reverse)).reverse

/-- `str.split(sep)` for a one-character separator, Python semantics:
`''.split('-') == ['']`, separators at the ends produce empty parts. -/
def splitOnChar (sep : Char) : List Char → List (List Char)
  | [] => [[]]
  | c :: rest =>
    if c = sep then [] :: splitOnChar sep rest
    else
      match splitOnChar sep rest with
      | g :: gs => (c :: g) :: gs
      | [] => [[c]]

/-- `str.isnumeric()`, restricted to ASCII: nonempty and all digits
(the non-ASCII numerics Python would also accept play no role here). -/
def pyIsNumeric (cs : List Char) : Bool := !cs.isEmpty && cs.all isDigitC

/-- `int(s)`: strip whitespace, optional sign directly followed by one or
more digits (leading zeros allowed).  `none` models the raised
`ValueError`. -/
def pyInt (cs0 : List Char) : Option Int :=
  match stripWs cs0 with
  | '-' :: ds => if pyIsNumeric ds then some (-(digitsToNat ds : Int)) else none
  | '+' :: ds => if pyIsNumeric ds then some (digitsToNat ds : Int) else none
  | ds => if pyIsNumeric ds then some (digitsToNat ds : Int) else none

/-- An unsigned Python numeric literal, as `eval` accepts it inside an
expression: a decimal integer (no leading zero except `0` itself) or a
decimal float (`1.5`, `5.`, `.5`; leading zeros allowed there). -/
def pyLitPos (cs : List Char) : Option Rat :=
  let p := cs.span isDigitC
  match p.2 with
  | [] =>
    match p.1 with
    | [] => none
    | [d] => some ((digitsToNat [d] : Nat) : Rat)
    | d :: ds =>
      if d = '0' then none    -- leading zero: SyntaxError in Python 3
      else some ((digitsToNat (d :: ds) : Nat) : Rat)
  | '.' :: frac =>
    if frac.all isDigitC then
      if p.1.isEmpty && frac.isEmpty then none   -- bare "."
      else some ((digitsToNat p.1 : Rat) + (digitsToNat frac : Rat) / ((10 : Rat) ^ frac.length))
    else none
  | _ => none

/-- `eval` of an interpolated operand string as a number: optional unary
minus, whitespace tolerated around the literal.  `none` models the
`NameError`/`SyntaxError` the interpolated text would raise. -/
def pyLitNum (cs0 : List Char) : Option Rat :=
  match stripWs cs0 with
  | '-' :: rest => (pyLitPos (stripWsL rest)).map Neg.neg
  | cs => pyLitPos cs

/-- `eval(f'{rangelow} <= {attr} <= {rangehigh}')`. -/
def evalChain (lo : List Char) (attr : PyVal) (hi : List Char) : Except PyErr Bool :=
  match pyLitNum lo, attrNum attr, pyLitNum hi with
  | some l, some a, some h => .ok (decide (l ≤ a) && decide (a ≤ h))
  | _, _, _ => .error .evalError

/-- `eval(f'{attr} == {value}')`. -/
def evalEq (attr : PyVal) (v : List Char) : Except PyErr Bool :=
  match attrNum attr, pyLitNum v with
  | some a, some n => .ok (decide (a = n))
  | _, _ => .error .evalError

/-- `eval(f'{attr} {op} {value}')` for `op` one of `<`, `>`. -/
def evalCmp (attr : PyVal) (op : Char) (v : List Char) : Except PyErr Bool :=
  match attrNum attr, pyLitNum v with
  | some a, some n => .ok (if op = '<' then decide (a < n) else decide (a > n))
  | _, _ => .error .evalError

namespace MediaInfo

/-- `self.__dict__.get(pred, None)`: the instance attributes assigned by
`__init__`.  An invalid `MediaInfo` only ever assigned `valid`. -/
def dictGet : MediaInfo → String → Option PyVal
  | none, p => if p = "valid" then some (.vBool false) else none
  | some d, p =>
    if p = "valid" then some (.vBool true)
    else if p = "path" then some (.vStr d.path)
    else if p = "vcodec" then some (.vStr d.vcodec)
    else if p = "stream" then some (.vStr d.stream)
    else if p = "res_height" then some (.vInt d.res_height)
    else if p = "res_width" then some (.vInt d.res_width)
    else if p = "runtime" then some (.vInt d.runtime)
    else if p = "filesize_mb" then some (.vFloat d.filesize_mb)
    else if p = "fps" then some (.vInt d.fps)
    else if p = "colorspace" then some (.vStr d.colorspace)
    else if p = "audio" then some (.vAudio d.audio)
    else if p = "subtitle" then some (.vSub d.subtitle)
    else none

/-- The tail of `eval_numeric`:
`if not eval(expr): (if verbose: print(...)); return False` / `return True`.
`value` is the local variable at that point (possibly rewritten by the
runtime conversion or the operator slice). -/
def finishEval (vb : Bool) (pred value : String) (attr : PyVal) :
    Except PyErr Bool → List String × Except PyErr Bool
  | .error e => ([], .error e)
  | .ok true => ([], .ok true)
  | .ok false =>
    ((if vb then
        ["  >> predicate " ++ pred ++ " (\"" ++ value ++ "\") did not match " ++ pyRepr attr]
      else []), .ok false)

/-- `MediaInfo.eval_numeric(rulename, pred, value)`.  `vb` is the module
flag `pytranscoder.verbose`.  Result: (printed lines, normal return value or
raised exception). -/
def eval_numeric (vb : Bool) (m : MediaInfo) (rulename pred value : String) :
    List String × Except PyErr Bool :=
  match m.dictGet pred with
  | none =>
    (["Error: Rule \"" ++ rulename ++ "\" unknown attribute: " ++ pred ++ " "],
     .error (.valueError value))
  | some attr =>
    let cs := value.toList
    if cs.contains '-' then
      -- range expression
      match splitOnChar '-' cs with
      | [rangelow, rangehigh] =>
        if pred = "runtime" then
          match pyInt rangelow with
          | none => ([], .error (.valueError (String.mk rangelow)))
          | some lo =>
            match pyInt rangehigh with
            | none => ([], .error (.valueError (String.mk rangehigh)))
            | some hi =>
              finishEval vb pred value attr
                (evalChain (toString (lo * 60)).toList attr (toString (hi * 60)).toList)
        else
          finishEval vb pred value attr (evalChain rangelow attr rangehigh)
      | _ =>
        (["Error: Rule \"" ++ rulename ++ "\" bad range expression: " ++ value ++ " "],
         .error (.valueError value))
    else if pyIsNumeric cs then
      -- simple numeric equality test
      if pred = "runtime" then
        let v2 := toString ((digitsToNat cs : Int) * 60)   -- value = str(int(value) * 60)
        finishEval vb pred v2 attr (evalEq attr v2.toList)
      else
        finishEval vb pred value attr (evalEq attr cs)
    else
      match cs with
      | [] => ([], .error .indexError)   -- value[0] on the empty string
      | c :: restChars =>
        if c = '<' ∨ c = '>' then
          if pred = "runtime" then
            match pyInt restChars with
            | none => ([], .error (.valueError (String.mk restChars)))
            | some n =>
              let v2 := toString (n * 60)
              finishEval vb pred v2 attr (evalCmp attr c v2.toList)
          else
            finishEval vb pred (String.mk restChars) attr (evalCmp attr c restChars)
        else
          (["Error: Rule \"" ++ rulename ++ "\" valid value: " ++ value], .ok false)

end MediaInfo

/-! ## Probe parser (`MediaInfo.parse_details`)

Executable character-level models of the four module-level regular
expressions.  `video_dur` and `video_info` use `re.match` with a leading
greedy `.*` under `re.DOTALL`: the match that Python reports is the one at
the *last* position where the remainder of the pattern succeeds, which the
models implement by recursing on the tail first.  `audio_info` and
`subtitle_info` use `re.finditer` with `re.MULTILINE` and patterns anchored
by `^\s+ ... $`: they match once per conforming line, which is modelled by
applying a per-line matcher to every line of the text.  (The one divergence:
Python's `\s+` could swallow the newline of a preceding whitespace-only line
and thereby accept an *unindented* stream line; conforming ffmpeg reports
indent every stream line, and no claim depends on that corner.)  `\w` and
`\d` are modelled as their ASCII classes. -/

/-- `\w` (ASCII). -/
def isWordC (c : Char) : Bool := c.isAlphanum || c = '_'

/-- Consume a literal prefix, returning the remainder. -/
def dropLit : List Char → List Char → Option (List Char)
  | [], cs => some cs
  | _ :: _, [] => none
  | l :: ls, c :: cs => if c = l then dropLit ls cs else none

/-- `Duration: (\d+):(\d+):(\d+)` tried at the current position. -/
def durHere (cs : List Char) : Option (Nat × Nat × Nat) :=
  match dropLit "Duration: ".toList cs with
  | none => none
  | some cs1 =>
    let p1 := cs1.span isDigitC
    if p1.1.isEmpty then none else
    match p1.2 with
    | ':' :: cs2 =>
      let p2 := cs2.span isDigitC
      if p2.1.isEmpty then none else
      match p2.2 with
      | ':' :: cs3 =>
        let p3 := cs3.span isDigitC
        if p3.1.isEmpty then none
        else some (digitsToNat p1.1, digitsToNat p2.1, digitsToNat p3.1)
      | _ => none
    | _ => none

/-- `video_dur = re.compile(r".*Duration: (\d+):(\d+):(\d+)", re.DOTALL)`,
applied with `.match`: the last position wins (greedy `.*`). -/
def video_dur : List Char → Option (Nat × Nat × Nat)
  | [] => none
  | c :: rest =>
    match video_dur rest with
    | some r => some r
    | none => durHere (c :: rest)

/-- The optional group `(\(\w+\))?` followed by a literal: try the
parenthesised word first (greedy `?`), fall back to the bare literal. -/
def optParenWordThen (lit : List Char) (cs : List Char) :
    Option (Option (List Char) × List Char) :=
  let direct := (dropLit lit cs).map (fun r => ((none : Option (List Char)), r))
  match cs with
  | '(' :: cs1 =>
    let p := cs1.span isWordC
    match p.1, p.2 with
    | _ :: _, ')' :: cs2 =>
      match dropLit lit cs2 with
      | some r => some (some p.1, r)
      | none => direct
    | _, _ => direct
  | _ => direct

/-- The groups captured by `video_info`. -/
structure VideoGroups where
  stream : List Char
  vcodec : List Char
  colorspace : List Char
  width : List Char
  height : List Char
  fps : List Char
deriving DecidableEq

/-- ` (\d+)(\.\d.)? fps` tried at the current position (the fractional
group is tried first, as the greedy `?` does). -/
def fpsHere (cs : List Char) : Option (List Char) :=
  match cs with
  | ' ' :: cs1 =>
    let p := cs1.span isDigitC
    if p.1.isEmpty then none else
    match p.2 with
    | '.' :: d :: _ :: cs3 =>
      if isDigitC d && (dropLit " fps".toList cs3).isSome then some p.1
      else if (dropLit " fps".toList p.2).isSome then some p.1
      else none
    | rest => if (dropLit " fps".toList rest).isSome then some p.1 else none
  | _ => none

/-- `.* (\d+)(\.\d.)? fps`: last position wins. -/
def fpsSearch : List Char → Option (List Char)
  | [] => none
  | c :: rest =>
    match fpsSearch rest with
    | some r => some r
    | none => fpsHere (c :: rest)

/-- ` (\d+)x(\d+)` then `.* (\d+)(\.\d.)? fps`, tried at the current
position. -/
def whHere (cs : List Char) : Option (List Char × List Char × List Char) :=
  match cs with
  | ' ' :: cs1 =>
    let pw := cs1.span isDigitC
    if pw.1.isEmpty then none else
    match pw.2 with
    | 'x' :: cs2 =>
      let ph := cs2.span isDigitC
      if ph.1.isEmpty then none else
      match fpsSearch ph.2 with
      | some f => some (pw.1, ph.1, f)
      | none => none
    | _ => none
  | _ => none

/-- `.* (\d+)x(\d+).* (\d+)(\.\d.)? fps`: last position wins. -/
def whSearch : List Char → Option (List Char × List Char × List Char)
  | [] => none
  | c :: rest =>
    match whSearch rest with
    | some r => some r
    | none => whHere (c :: rest)

/-- `, (yuv\w+)[(,]` then the tail of the pattern, tried at the current
position. -/
def colorHere (cs : List Char) : Option (List Char × List Char × List Char × List Char) :=
  match dropLit ", yuv".toList cs with
  | none => none
  | some cs1 =>
    let p := cs1.span isWordC
    if p.1.isEmpty then none else
    match p.2 with
    | c :: cs2 =>
      if c = '(' || c = ',' then
        match whSearch cs2 with
        | some (w, h, f) => some ('y' :: 'u' :: 'v' :: p.1, w, h, f)
        | none => none
      else none
    | [] => none

/-- `.*, (yuv\w+)[(,] ...`: last position wins. -/
def colorSearch : List Char → Option (List Char × List Char × List Char × List Char)
  | [] => none
  | c :: rest =>
    match colorSearch rest with
    | some r => some r
    | none => colorHere (c :: rest)

/-- `Stream #0:(\d+)(?:\(\w+\))?: Video: (\w+)` then the rest of
`video_info`, tried at the current position. -/
def videoHere (cs : List Char) : Option VideoGroups :=
  match dropLit "Stream #0:".toList cs with
  | none => none
  | some cs1 =>
    let pid := cs1.span isDigitC
    if pid.1.isEmpty then none else
    match optParenWordThen ": Video: ".toList pid.2 with
    | none => none
    | some (_, cs2) =>
      let pc := cs2.span isWordC
      if pc.1.isEmpty then none else
      match colorSearch pc.2 with
      | some (col, w, h, f) =>
        some { stream := pid.1, vcodec := pc.1, colorspace := col, width := w,
               height := h, fps := f }
      | none => none

/-- `video_info = re.compile(r'.*Stream #0:(\d+)(?:\(\w+\))?: Video: (\w+).*,
(yuv\w+)[(,].* (\d+)x(\d+).* (\d+)(\.\d.)? fps', re.DOTALL)`, applied with
`.match`: last position wins. -/
def video_info : List Char → Option VideoGroups
  | [] => none
  | c :: rest =>
    match video_info rest with
    | some r => some r
    | none => videoHere (c :: rest)

/-- The group dictionary of one `audio_info` match. -/
structure AudioMatch where
  stream : List Char
  lang : Option (List Char)
  format : List Char
  default : Option (List Char)
deriving DecidableEq

/-- `\s` restricted to a single line (no `\n`, which `String.splitOn`
already consumed). -/
def isLineSpaceC (c : Char) : Bool :=
  c = ' ' || c = '\t' || c = '\r' || c = '\x0b' || c = '\x0c'

/-- Does `cs` end with the literal `pat`? -/
def endsWithL (pat cs : List Char) : Bool :=
  List.isPrefixOf pat.reverse cs.reverse

/-- One line against
`^\s+Stream #0:(?P<stream>\d+)(\((?P<lang>\w+)\))?: Audio:
(?P<format>\w+).*?(?P<default>\(default\))?$` (MULTILINE).  With the lazy
`.*?` and the final `$`, the `default` group is captured exactly when the
line ends with the literal `(default)`. -/
def audio_info (line : List Char) : Option AudioMatch :=
  let pws := line.span isLineSpaceC
  if pws.1.isEmpty then none else
  match dropLit "Stream #0:".toList pws.2 with
  | none => none
  | some cs1 =>
    let pid := cs1.span isDigitC
    if pid.1.isEmpty then none else
    match optParenWordThen ": Audio: ".toList pid.2 with
    | none => none
    | some (lg, cs2) =>
      let pf := cs2.span isWordC
      if pf.1.isEmpty then none else
      some { stream := pid.1, lang := lg, format := pf.1,
             default := if endsWithL "(default)".toList pf.2
                        then some "(default)".toList else none }

/-- One line against
`^\s+Stream #0:(?P<stream>\d+)(\((?P<lang>\w+)\))?: Subtitle:` (MULTILINE). -/
def subtitle_info (line : List Char) : Option (List Char × Option (List Char)) :=
  let pws := line.span isLineSpaceC
  if pws.1.isEmpty then none else
  match dropLit "Stream #0:".toList pws.2 with
  | none => none
  | some cs1 =>
    let pid := cs1.span isDigitC
    if pid.1.isEmpty then none else
    match optParenWordThen ": Subtitle:".toList pid.2 with
    | none => none
    | some (lg, _) => some (pid.1, lg)

/-- The lines `finditer` effectively walks with the MULTILINE patterns
(`str.split('\n')` on the report). -/
def probeLines (output : String) : List (List Char) :=
  splitOnChar '\n' output.toList

/-- `if ainfo['lang'] is None: ainfo['lang'] = 'und'` followed by
`AudioTrack(ainfo)`. -/
def mkAudioTrack (a : AudioMatch) : AudioTrack :=
  { track := String.mk a.stream,
    lang := match a.lang with
            | none => "und"
            | some lg => String.mk lg,
    format := String.mk a.format,
    default := a.default.map String.mk }

/-- Same for subtitles. -/
def mkSubtitleTrack (s : List Char × Option (List Char)) : SubtitleTrack :=
  { track := String.mk s.1,
    lang := match s.2 with
            | none => "und"
            | some lg => String.mk lg }

/-- The `audio_tracks` accumulation loop of `parse_details`. -/
def audioTracksOf (output : String) : List AudioTrack :=
  (probeLines output).filterMap (fun l => (audio_info l).map mkAudioTrack)

/-- The `subtitle_tracks` accumulation loop of `parse_details`. -/
def subtitleTracksOf (output : String) : List SubtitleTrack :=
  (probeLines output).filterMap (fun l => (subtitle_info l).map mkSubtitleTrack)

namespace MediaInfo

/-- The diagnostic printed on either parse failure. -/
def parseFailMsg (path : String) : String :=
  ">>>> regex match on video stream data failed: ffmpeg -i " ++ path

/-- `MediaInfo.parse_details(_path, output)`.  `getsize` models
`os.path.getsize` (bytes on disk).  Returns the `MediaInfo` and the printed
lines.  The `len(match.groups()) < k` guards of the source are vacuous (the
patterns define 3 resp. 7 groups) and are dropped.  On a duration failure
the function returns at once: nothing past the first `return` is
evaluated. -/
def parse_details (getsize : String → Int) (path output : String) :
    MediaInfo × List String :=
  match video_dur output.toList with
  | none => (none, [parseFailMsg path])
  | some dur =>
    match video_info output.toList with
    | none => (none, [parseFailMsg path])
    | some g =>
      (some
        { path := path,
          vcodec := String.mk g.vcodec,
          stream := String.mk g.stream,
          res_width := (digitsToNat g.width : Int),
          res_height := (digitsToNat g.height : Int),
          runtime := (dur.1 * 3600 + dur.2.1 * 60 + dur.2.2 : Int),
          filesize_mb := (getsize path : Rat) / (1024 * 1024),
          fps := (digitsToNat g.fps : Int),
          colorspace := String.mk g.colorspace,
          audio := audioTracksOf output,
          subtitle := subtitleTracksOf output }, [])

end MediaInfo

/-! ## Sample data reused by concrete theorems -/

/-- A concrete valid media description (fields as parsed from a typical
report). -/
def sampleMedia : MediaData :=
  { path := "f", vcodec := "h264", stream := "0", res_height := 1080, res_width := 1920,
    runtime := 6000, filesize_mb := 100, fps := 23, colorspace := "yuv420p",
    audio := [], subtitle := [] }

/-- A well-formed probe report: duration, one video stream, two audio
streams (`eng` marked default, one untagged), one subtitle stream. -/
def wfProbe : String :=
  "Input #0\n  Duration: 00:30:15, start\n  Stream #0:0: Video: h264, yuv420p(tv), 1920x1080, 23 fps, 24 tbr\n  Stream #0:1(eng): Audio: aac, stereo (default)\n  Stream #0:2: Audio: ac3, 5.1\n  Stream #0:3(spa): Subtitle: subrip\n"

/-- The `MediaData` that `parse_details (fun _ => 0) "f" wfProbe` produces
(spelled out; the `filesize_mb` field is the unevaluated division the parser
builds). -/
def wfParsed : MediaData :=
  { path := "f", vcodec := "h264", stream := "0", res_height := 1080, res_width := 1920,
    runtime := 1815, filesize_mb := ((0 : Int) : Rat) / (1024 * 1024), fps := 23,
    colorspace := "yuv420p",
    audio := [{ track := "1", lang := "eng", format := "aac", default := some "(default)" },
              { track := "2", lang := "und", format := "ac3", default := none }],
    subtitle := [{ track := "3", lang := "spa" }] }

/-- A well-formed probe report whose single audio line carries the literal
language tag `(und)`. -/
def undProbe : String :=
  "  Duration: 00:01:00\n  Stream #0:0: Video: h264, yuv420p(tv), 1280x720, 23 fps\n  Stream #0:1(und): Audio: aac\n"

/-- A well-formed probe report with two audio lines carrying the *same*
stream index. -/
def dupProbe : String :=
  "  Duration: 00:01:00\n  Stream #0:0: Video: h264, yuv420p(tv), 1280x720, 23 fps\n  Stream #0:1(eng): Audio: aac\n  Stream #0:1(spa): Audio: ac3\n"

/-! ## Characterisations of the loops -/

namespace MediaInfo

/-- The keep-condition the audio loop implements: survive the include
filter and the exclude filter. -/
def keepAudio (includes : Option (List String)) (excludes : List String)
    (s : AudioTrack) : Bool :=
  !(inclDrop includes s.lang) && !(excludes.contains s.lang)

/-- The same keep-condition as implemented by the subtitle loop. -/
def keepSub (includes : Option (List String)) (excludes : List String)
    (s : SubtitleTrack) : Bool :=
  !(inclDrop includes s.lang) && !(excludes.contains s.lang)

theorem audioLoop_mapped (includes : Option (List String)) (excludes : List String)
    (ts : List AudioTrack) :
    (audioLoop includes excludes ts).1 = ts.filter (keepAudio includes excludes) := by
  induction ts with
  | nil => rfl
  | cons s rest ih =>
    by_cases h1 : inclDrop includes s.lang
    · simp [audioLoop, keepAudio, h1, ih]
    · by_cases h2 : s.lang ∈ excludes
      · simp [audioLoop, keepAudio, h1, h2, ih]
      · simp [audioLoop, keepAudio, h1, h2, ih]

theorem audioLoop_seq (includes : Option (List String)) (excludes : List String)
    (ts : List AudioTrack) :
    (audioLoop includes excludes ts).2.1
      = selTokens (ts.filter (keepAudio includes excludes)) := by
  induction ts with
  | nil => rfl
  | cons s rest ih =>
    by_cases h1 : inclDrop includes s.lang
    · simp [audioLoop, keepAudio, h1, ih]
    · by_cases h2 : s.lang ∈ excludes
      · simp [audioLoop, keepAudio, h1, h2, ih]
      · simp [audioLoop, keepAudio, selTokens, h1, h2, ih]

theorem audioLoop_seq_mapped (includes : Option (List String)) (excludes : List String)
    (ts : List AudioTrack) :
    (audioLoop includes excludes ts).2.1 = selTokens (audioLoop includes excludes ts).1 := by
  rw [audioLoop_mapped, audioLoop_seq]

theorem mem_selTokens (x : String) (ts : List AudioTrack) :
    x ∈ selTokens ts → x = "-map" ∨ ∃ t ∈ ts, x = "0:" ++ t.track := by
  induction ts with
  | nil => intro hx; cases hx
  | cons s rest ih =>
    intro hx
    simp only [selTokens, List.mem_cons] at hx
    rcases hx with rfl | hx
    · exact Or.inl rfl
    rcases hx with rfl | hx
    · exact Or.inr ⟨s, List.mem_cons_self _ _, rfl⟩
    · rcases ih hx with h | ⟨t, ht, rfl⟩
      · exact Or.inl h
      · exact Or.inr ⟨t, List.mem_cons_of_mem _ ht, rfl⟩

theorem subLoop_mapped (includes : Option (List String)) (excludes : List String)
    (ts : List SubtitleTrack) :
    (subLoop includes excludes ts).1 = ts.filter (keepSub includes excludes) := by
  induction ts with
  | nil => rfl
  | cons s rest ih =>
    by_cases h1 : inclDrop includes s.lang
    · simp [subLoop, keepSub, h1, ih]
    · by_cases h2 : s.lang ∈ excludes
      · simp [subLoop, keepSub, h1, h2, ih]
      · simp [subLoop, keepSub, h1, h2, ih]

theorem subLoop_seq (includes : Option (List String)) (excludes : List String)
    (ts : List SubtitleTrack) :
    (subLoop includes excludes ts).2
      = selTokensSub (ts.filter (keepSub includes excludes)) := by
  induction ts with
  | nil => rfl
  | cons s rest ih =>
    by_cases h1 : inclDrop includes s.lang
    · simp [subLoop, keepSub, h1, ih]
    · by_cases h2 : s.lang ∈ excludes
      · simp [subLoop, keepSub, h1, h2, ih]
      · simp [subLoop, keepSub, selTokensSub, h1, h2, ih]

theorem mem_selTokensSub (x : String) (ts : List SubtitleTrack) :
    x ∈ selTokensSub ts → x = "-map" ∨ ∃ t ∈ ts, x = "0:" ++ t.track := by
  induction ts with
  | nil => intro hx; cases hx
  | cons s rest ih =>
    intro hx
    simp only [selTokensSub, List.mem_cons] at hx
    rcases hx with rfl | hx
    · exact Or.inl rfl
    rcases hx with rfl | hx
    · exact Or.inr ⟨s, List.mem_cons_self _ _, rfl⟩
    · rcases ih hx with h | ⟨t, ht, rfl⟩
      · exact Or.inl h
      · exact Or.inr ⟨t, List.mem_cons_of_mem _ ht, rfl⟩

theorem dispoLoop_eq_nil (d : String) (i : Nat) (ts : List AudioTrack)
    (h : ∀ t ∈ ts, t.lang ≠ d) : dispoLoop d i ts = [] := by
  induction ts generalizing i with
  | nil => rfl
  | cons s rest ih =>
    have hs : ¬ s.lang = d := h s (List.mem_cons_self _ _)
    simp only [dispoLoop, if_neg hs]
    exact ih (i + 1) (fun t ht => h t (List.mem_cons_of_mem _ ht))

theorem dispoLoop_append (d : String) (i : Nat) (pre rest : List AudioTrack)
    (h : ∀ t ∈ pre, t.lang ≠ d) :
    dispoLoop d i (pre ++ rest) = dispoLoop d (i + pre.length) rest := by
  induction pre generalizing i with
  | nil => simp
  | cons s pre' ih =>
    have hs : ¬ s.lang = d := h s (List.mem_cons_self _ _)
    simp only [List.cons_append, dispoLoop, if_neg hs, List.append_eq]
    rw [ih (i + 1) (fun t ht => h t (List.mem_cons_of_mem _ ht))]
    congr 1
    simp only [List.length_cons]
    omega

theorem mem_dispoLoop (x : String) (d : String) (i : Nat) (ts : List AudioTrack) :
    x ∈ dispoLoop d i ts →
      x = "default" ∨ ∃ j : Nat, x = "-disposition:a:" ++ toString j := by
  induction ts generalizing i with
  | nil => intro hx; cases hx
  | cons s rest ih =>
    intro hx
    by_cases hs : s.lang = d
    · simp only [dispoLoop, if_pos hs, List.mem_cons] at hx
      rcases hx with rfl | hx
      · exact Or.inr ⟨i, rfl⟩
      rcases hx with rfl | hx
      · exact Or.inl rfl
      · exact ih (i + 1) hx
    · simp only [dispoLoop, if_neg hs] at hx
      exact ih (i + 1) hx

end MediaInfo

/-! ## Small string facts -/

theorem string_mk_inj {a b : List Char} (h : String.mk a = String.mk b) : a = b := by
  injection h

theorem append_left_cancel_str {p a b : String} (h : p ++ a = p ++ b) : a = b := by
  have hd := congrArg String.data h
  rw [String.data_append, String.data_append] at hd
  exact String.ext (List.append_cancel_left hd)

theorem track_token_ne_map (a : String) : ("0:" ++ a) ≠ "-map" := by
  intro h
  have hd := congrArg String.data h
  rw [String.data_append] at hd
  have : '0' :: ':' :: a.data = ['-', 'm', 'a', 'p'] := hd
  cases this

theorem track_token_ne_default (a : String) : ("0:" ++ a) ≠ "default" := by
  intro h
  have hd := congrArg String.data h
  rw [String.data_append] at hd
  have : '0' :: ':' :: a.data = ['d', 'e', 'f', 'a', 'u', 'l', 't'] := hd
  cases this

theorem track_token_ne_dispo (a : String) (j : Nat) :
    ("0:" ++ a) ≠ "-disposition:a:" ++ toString j := by
  intro h
  have hd := congrArg String.data h
  rw [String.data_append, String.data_append] at hd
  have : '0' :: ':' :: a.data
      = '-' :: ('d' :: 'i' :: 's' :: 'p' :: 'o' :: 's' :: 'i' :: 't' :: 'i' :: 'o' :: 'n' :: ':' :: 'a' :: ':' :: []) ++ (toString j).data := hd
  cases this

/-! ## Generic facts about `filterMap` over optional matches -/

theorem length_filterMap_opt {α β γ : Type} (f : α → Option β) (g : β → γ) (ls : List α) :
    (ls.filterMap (fun l => (f l).map g)).length = ls.countP (fun l => (f l).isSome) := by
  induction ls with
  | nil => rfl
  | cons l rest ih =>
    cases hf : f l with
    | none => simp [List.filterMap_cons, List.countP_cons, hf, ih]
    | some b => simp [List.filterMap_cons, List.countP_cons, hf, ih]

theorem map_filterMap_opt {α β γ δ : Type} (f : α → Option β) (g : β → γ) (h : γ → δ)
    (ls : List α) :
    (ls.filterMap (fun l => (f l).map g)).map h
      = ls.filterMap (fun l => (f l).map (fun x => h (g x))) := by
  induction ls with
  | nil => rfl
  | cons l rest ih =>
    cases hf : f l with
    | none => simp [List.filterMap_cons, hf, ih]
    | some b => simp [List.filterMap_cons, hf, ih]

/-! ## Reduction helpers for `eval_numeric` -/

theorem finishEval_snd (vb : Bool) (pred v : String) (attr : PyVal) (b : Bool) :
    (MediaInfo.finishEval vb pred v attr (.ok b)).2 = .ok b := by
  cases b <;> rfl

theorem evalChain_5400_7200 (n : Int) :
    evalChain "5400".toList (.vInt n) "7200".toList
      = .ok (decide ((5400 : Int) ≤ n) && decide (n ≤ (7200 : Int))) := by
  show Except.ok
      (decide (((5400 : Nat) : Rat) ≤ (n : Rat)) && decide ((n : Rat) ≤ ((7200 : Nat) : Rat)))
    = _
  congr 1
  congr 1
  · rw [decide_eq_decide]
    constructor
    · intro h; exact_mod_cast h
    · intro h; exact_mod_cast h
  · rw [decide_eq_decide]
    constructor
    · intro h; exact_mod_cast h
    · intro h; exact_mod_cast h

/-! ## The claims -/

/-- Claim C10: the `AudioTrack.codec` property refers to itself
(`return self.codec`), so no amount of recursion fuel makes it return the
stored `format` field — or anything at all: every call ends in the fuel
running out, i.e. Python's `RecursionError`.  The stored codec name remains
reachable only through the raw `format` attribute. -/
theorem codec_property_diverges :
    ∀ (t : AudioTrack) (fuel : Nat), AudioTrack.codec t fuel = none := by
  intro t fuel
  induction fuel with
  | zero => rfl
  | succ n ih => exact ih

/-- Claim C4: on attribute `"runtime"` (stored in seconds) `eval_numeric`
multiplies the range bounds by 60 before comparing: for the rule value
`"90-120"` it returns exactly the inclusive containment of the stored
runtime in `[90*60, 120*60] = [5400, 7200]`; in particular a stored runtime
of 6000 seconds matches and one of 8000 seconds does not. -/
theorem runtime_range_times_sixty :
    (∀ (m : MediaData) (rn : String),
      (MediaInfo.eval_numeric false (some m) rn "runtime" "90-120").2
        = .ok (decide ((90 * 60 : Int) ≤ m.runtime) && decide (m.runtime ≤ (120 * 60 : Int))))
    ∧ (MediaInfo.eval_numeric false (some { sampleMedia with runtime := 6000 })
         "rule" "runtime" "90-120").2 = .ok true
    ∧ (MediaInfo.eval_numeric false (some { sampleMedia with runtime := 8000 })
         "rule" "runtime" "90-120").2 = .ok false := by
  refine ⟨fun m rn => ?_, by decide, by decide⟩
  have h1 : MediaInfo.eval_numeric false (some m) rn "runtime" "90-120"
      = MediaInfo.finishEval false "runtime" "90-120" (.vInt m.runtime)
          (evalChain "5400".toList (.vInt m.runtime) "7200".toList) := rfl
  rw [h1, evalChain_5400_7200, finishEval_snd]
  norm_num

/-- Claim C5: if the duration extraction or the video-stream extraction
fails, `parse_details` prints the diagnostic that names the path and
returns an invalid `MediaInfo` (`none`), which carries no other field; on a
duration failure the result is already fixed, so no further extraction can
influence it. -/
theorem parse_failure_yields_invalid (getsize : String → Int) (path output : String) :
    (video_dur output.toList = none →
      MediaInfo.parse_details getsize path output = (none, [MediaInfo.parseFailMsg path]))
    ∧ (video_info output.toList = none →
      MediaInfo.parse_details getsize path output = (none, [MediaInfo.parseFailMsg path])) := by
  constructor
  · intro h
    unfold MediaInfo.parse_details
    rw [h]
  · intro h
    unfold MediaInfo.parse_details
    cases hd : video_dur output.toList with
    | none => rfl
    | some dur => rw [h]

/-- Witness for C5 at concrete inputs: a report with no duration line, and
one with a duration but no video-stream line. -/
theorem parse_failure_yields_invalid_witness :
    MediaInfo.parse_details (fun _ => 0) "p" "" = (none, [MediaInfo.parseFailMsg "p"])
    ∧ MediaInfo.parse_details (fun _ => 0) "q" "  Duration: 01:02:03"
        = (none, [MediaInfo.parseFailMsg "q"]) :=
  ⟨(parse_failure_yields_invalid (fun _ => 0) "p" "").1 (by decide),
   (parse_failure_yields_invalid (fun _ => 0) "q" "  Duration: 01:02:03").2 (by decide)⟩

/-- Claim C6: with empty inclusion and exclusion lists for both track types
`ffmpeg_streams` returns exactly `['-map', '0']`; otherwise the token list
is the explicit video-stream pair followed by the audio tokens and then the
subtitle tokens. -/
theorem ffmpeg_streams_shape (m : MediaData) (p : Profile) :
    ((p.included_audio = [] ∧ p.excluded_audio.getD [] = [] ∧
      p.included_subtitles = [] ∧ p.excluded_subtitles.getD [] = []) →
      (MediaInfo.ffmpeg_streams m p).1 = ["-map", "0"])
    ∧ (¬(p.included_audio = [] ∧ p.excluded_audio.getD [] = [] ∧
         p.included_subtitles = [] ∧ p.excluded_subtitles.getD [] = []) →
      (MediaInfo.ffmpeg_streams m p).1
        = "-map" :: ("0:" ++ m.stream) ::
            ((MediaInfo.map_audio_streams m.audio (some (p.excluded_audio.getD []))
                (some p.included_audio) p.default_audio).1
              ++ MediaInfo.map_subtitle_streams m.subtitle (some (p.excluded_subtitles.getD []))
                (some p.included_subtitles) p.default_subtitle)) := by
  constructor
  · intro h
    obtain ⟨h1, h2, h3, h4⟩ := h
    simp only [MediaInfo.ffmpeg_streams]
    rw [if_pos]
    exact ⟨by simp [h1], by simp [h2], by simp [h3], by simp [h4]⟩
  · intro h
    simp only [MediaInfo.ffmpeg_streams]
    rw [if_neg]
    intro hc
    obtain ⟨h1, h2, h3, h4⟩ := hc
    exact h ⟨List.length_eq_zero.mp h1, List.length_eq_zero.mp h2,
             List.length_eq_zero.mp h3, List.length_eq_zero.mp h4⟩

/-- Witness for C6 at concrete inputs: an all-empty profile takes the
two-token shortcut, a profile with one excluded audio language takes the
explicit path. -/
theorem ffmpeg_streams_shape_witness :
    (MediaInfo.ffmpeg_streams sampleMedia
      { excluded_audio := none, excluded_subtitles := none, included_audio := [],
        included_subtitles := [], default_audio := none, default_subtitle := none }).1
      = ["-map", "0"]
    ∧ (MediaInfo.ffmpeg_streams sampleMedia
        { excluded_audio := some ["ger"], excluded_subtitles := none, included_audio := [],
          included_subtitles := [], default_audio := none, default_subtitle := none }).1
      = "-map" :: ("0:" ++ sampleMedia.stream) ::
          ((MediaInfo.map_audio_streams sampleMedia.audio (some ["ger"]) (some []) none).1
            ++ MediaInfo.map_subtitle_streams sampleMedia.subtitle (some []) (some []) none) :=
  ⟨(ffmpeg_streams_shape sampleMedia _).1 (by decide),
   (ffmpeg_streams_shape sampleMedia _).2 (by decide)⟩

/-- Claim C1 (counterexample): the claim says a track whose language is in
both the inclusion and the exclusion list is kept and gets its selection
pair — for audio and subtitle tracks alike.  In the code the exclusion
check still runs after the inclusion check passes, so both are dropped:
with one `eng` audio track and one `eng` subtitle track, and `["eng"]` as
both the inclusion and the exclusion list of each track type,
`ffmpeg_streams` emits only the video pair — neither `['-map', '0:1']`
(audio) nor `['-map', '0:2']` (subtitle). -/
theorem incl_excl_keep_counterexample :
    (MediaInfo.ffmpeg_streams
      { sampleMedia with
          audio := [{ track := "1", lang := "eng", format := "aac", default := none }],
          subtitle := [{ track := "2", lang := "eng" }] }
      { excluded_audio := some ["eng"], excluded_subtitles := some ["eng"],
        included_audio := ["eng"], included_subtitles := ["eng"],
        default_audio := none, default_subtitle := none }).1
    = ["-map", "0:0"] := by decide

/-- Claim C1 (amended): when a track's language appears in both the
configured inclusion and exclusion lists for its track type, the track is
*dropped* — audio and subtitle alike: it does not reach the kept
(`mapped`) sequence of its per-track-type procedure, and no selection
token pair naming it is emitted (the inclusion list only shields tracks
from the include-filter; the exclusion check still applies afterwards). -/
theorem incl_excl_both_drops (streams : List AudioTrack) (subs : List SubtitleTrack)
    (exclA lA exclS lS : List String) (deflA deflS : Option String)
    (s : AudioTrack) (u : SubtitleTrack)
    (hincl : s.lang ∈ lA) (hexcl : s.lang ∈ exclA)
    (huincl : u.lang ∈ lS) (huexcl : u.lang ∈ exclS)
    (hid : ∀ t ∈ streams, t.track = s.track → t.lang = s.lang)
    (huid : ∀ t ∈ subs, t.track = u.track → t.lang = u.lang) :
    (s ∉ (MediaInfo.audioLoop (some lA) exclA streams).1
      ∧ ("0:" ++ s.track)
          ∉ (MediaInfo.map_audio_streams streams (some exclA) (some lA) deflA).1)
    ∧ (u ∉ (MediaInfo.subLoop (some lS) exclS subs).1
      ∧ ("0:" ++ u.track)
          ∉ MediaInfo.map_subtitle_streams subs (some exclS) (some lS) deflS) := by
  have hkeep : ∀ t : AudioTrack, t.lang = s.lang →
      MediaInfo.keepAudio (some lA) exclA t = false := by
    intro t ht
    simp [MediaInfo.keepAudio, MediaInfo.inclDrop, ht, hincl, hexcl]
  have hkeepS : ∀ t : SubtitleTrack, t.lang = u.lang →
      MediaInfo.keepSub (some lS) exclS t = false := by
    intro t ht
    simp [MediaInfo.keepSub, MediaInfo.inclDrop, ht, huincl, huexcl]
  have hseq : ("0:" ++ s.track) ∉ (MediaInfo.audioLoop (some lA) exclA streams).2.1 := by
    rw [MediaInfo.audioLoop_seq]
    intro hmem
    rcases MediaInfo.mem_selTokens _ _ hmem with h | ⟨t, ht, heq⟩
    · exact track_token_ne_map _ h
    · have htr : s.track = t.track := append_left_cancel_str heq
      have hmem' : t ∈ streams := List.mem_of_mem_filter ht
      have hlang : t.lang = s.lang := hid t hmem' htr.symm
      have hkt := List.of_mem_filter ht
      rw [hkeep t hlang] at hkt
      cases hkt
  have hdis : ∀ (d : String) (i : Nat),
      ("0:" ++ s.track)
        ∉ MediaInfo.dispoLoop d i (MediaInfo.audioLoop (some lA) exclA streams).1 := by
    intro d i hmem
    rcases MediaInfo.mem_dispoLoop _ _ _ _ hmem with h | ⟨j, hj⟩
    · exact track_token_ne_default _ h
    · exact track_token_ne_dispo _ j hj
  have hnorm : MediaInfo.normIncludes (some lA) = some lA := by
    cases lA with
    | nil => cases hincl
    | cons a as => rfl
  have hnormS : MediaInfo.normIncludes (some lS) = some lS := by
    cases lS with
    | nil => cases huincl
    | cons a as => rfl
  refine ⟨⟨?_, ?_⟩, ?_, ?_⟩
  · rw [MediaInfo.audioLoop_mapped]
    intro hmem
    have hks := List.of_mem_filter hmem
    rw [hkeep s rfl] at hks
    cases hks
  · intro hmem
    simp only [MediaInfo.map_audio_streams, hnorm, Option.getD_some] at hmem
    by_cases hre : (MediaInfo.audioLoop (some lA) exclA streams).2.2 = true
    · rw [if_pos hre] at hmem
      cases deflA with
      | none => exact hseq hmem
      | some d =>
        rcases List.mem_append.mp hmem with hmem' | hmem'
        · exact hseq hmem'
        · exact hdis d 0 hmem'
    · rw [if_neg hre] at hmem
      exact hseq hmem
  · rw [MediaInfo.subLoop_mapped]
    intro hmem
    have hks := List.of_mem_filter hmem
    rw [hkeepS u rfl] at hks
    cases hks
  · intro hmem
    simp only [MediaInfo.map_subtitle_streams, hnormS, Option.getD_some] at hmem
    rw [MediaInfo.subLoop_seq] at hmem
    rcases MediaInfo.mem_selTokensSub _ _ hmem with h | ⟨t, ht, heq⟩
    · exact track_token_ne_map _ h
    · have htr : u.track = t.track := append_left_cancel_str heq
      have hmem' : t ∈ subs := List.mem_of_mem_filter ht
      have hlang : t.lang = u.lang := huid t hmem' htr.symm
      have hkt := List.of_mem_filter ht
      rw [hkeepS t hlang] at hkt
      cases hkt

/-- Witness for the amended C1: the single `eng` audio track and the single
`eng` subtitle track, each with `eng` both included and excluded for its
track type, are not kept and produce no selection pair. -/
theorem incl_excl_both_drops_witness :
    (({ track := "1", lang := "eng", format := "aac", default := none } : AudioTrack)
        ∉ (MediaInfo.audioLoop (some ["eng"]) ["eng"]
            [{ track := "1", lang := "eng", format := "aac", default := none }]).1
      ∧ ("0:" ++ "1")
          ∉ (MediaInfo.map_audio_streams
              [{ track := "1", lang := "eng", format := "aac", default := none }]
              (some ["eng"]) (some ["eng"]) none).1)
    ∧ (({ track := "2", lang := "eng" } : SubtitleTrack)
        ∉ (MediaInfo.subLoop (some ["eng"]) ["eng"] [{ track := "2", lang := "eng" }]).1
      ∧ ("0:" ++ "2")
          ∉ MediaInfo.map_subtitle_streams [{ track := "2", lang := "eng" }]
              (some ["eng"]) (some ["eng"]) none) :=
  incl_excl_both_drops
    [{ track := "1", lang := "eng", format := "aac", default := none }]
    [{ track := "2", lang := "eng" }]
    ["eng"] ["eng"] ["eng"] ["eng"] none none
    { track := "1", lang := "eng", format := "aac", default := none }
    { track := "2", lang := "eng" }
    (by decide) (by decide) (by decide) (by decide) (by decide) (by decide)

/-- Claim C2 (counterexample): the claim says exactly one
disposition-override pair is appended.  The reassignment loop has no
`break`, so with two kept `eng` tracks and override language `eng` it
appends two pairs (`-disposition:a:0` and `-disposition:a:1`). -/
theorem dispo_multiple_counterexample :
    (MediaInfo.ffmpeg_streams
      { sampleMedia with
          audio := [{ track := "0", lang := "ger", format := "ac3", default := some "default" },
                    { track := "1", lang := "eng", format := "aac", default := none },
                    { track := "2", lang := "eng", format := "aac", default := none }] }
      { excluded_audio := some ["ger"], excluded_subtitles := none,
        included_audio := [], included_subtitles := [],
        default_audio := some "eng", default_subtitle := none }).1
    = ["-map", "0:0", "-map", "0:1", "-map", "0:2",
       "-disposition:a:0", "default", "-disposition:a:1", "default"] := by decide

/-- Claim C2 (amended): when a default audio track is dropped and the
configured override language matches *exactly one* kept track, exactly one
disposition-override pair is appended, and the position it names is that
track's 0-based index among the kept (`mapped`) audio tracks — the length
of the kept prefix before it — not its original stream index.  (With
several matching kept tracks the loop, having no `break`, emits one pair
per match; see the counterexample.) -/
theorem dispo_unique_match (streams : List AudioTrack)
    (excludes includes : Option (List String)) (d : String)
    (pre post : List AudioTrack) (s0 : AudioTrack)
    (hre : (MediaInfo.audioLoop (MediaInfo.normIncludes includes)
             (excludes.getD []) streams).2.2 = true)
    (hm : (MediaInfo.audioLoop (MediaInfo.normIncludes includes)
            (excludes.getD []) streams).1 = pre ++ s0 :: post)
    (hpre : ∀ t ∈ pre, t.lang ≠ d) (hs0 : s0.lang = d) (hpost : ∀ t ∈ post, t.lang ≠ d) :
    (MediaInfo.map_audio_streams streams excludes includes (some d)).1
      = MediaInfo.selTokens (pre ++ s0 :: post)
        ++ ("-disposition:a:" ++ toString pre.length) :: ["default"] := by
  simp only [MediaInfo.map_audio_streams]
  rw [hre]
  simp only [if_true]
  rw [MediaInfo.audioLoop_seq_mapped, hm]
  rw [MediaInfo.dispoLoop_append d 0 pre _ hpre]
  have hst : MediaInfo.dispoLoop d (0 + pre.length) (s0 :: post)
      = ("-disposition:a:" ++ toString (0 + pre.length)) :: "default"
          :: MediaInfo.dispoLoop d (0 + pre.length + 1) post := by
    simp [MediaInfo.dispoLoop, hs0]
  rw [hst, MediaInfo.dispoLoop_eq_nil d _ post hpost]
  simp

/-- Witness for the amended C2: dropping the default `ger` track with
override `eng` matching the single kept track appends exactly
`['-disposition:a:0', 'default']` after the selection pair. -/
theorem dispo_unique_match_witness :
    (MediaInfo.map_audio_streams
      [{ track := "0", lang := "ger", format := "ac3", default := some "default" },
       { track := "1", lang := "eng", format := "aac", default := none }]
      (some ["ger"]) none (some "eng")).1
    = ["-map", "0:1", "-disposition:a:0", "default"] := by
  have h := dispo_unique_match
    [{ track := "0", lang := "ger", format := "ac3", default := some "default" },
     { track := "1", lang := "eng", format := "aac", default := none }]
    (some ["ger"]) none "eng"
    [] [] { track := "1", lang := "eng", format := "aac", default := none }
    (by decide) (by decide) (by simp) rfl (by simp)
  simpa using h

/-- Claim C3 (counterexample): the claim says `eval_numeric` raises for
every attribute name outside the recognised numeric/derived set.  The code
only checks `self.__dict__`, which also holds the non-numeric attributes:
for the attribute name `"valid"` (not a numeric/derived attribute) and
value `"1"` the call returns normally — Python evaluates `True == 1` to
`True`. -/
theorem unknown_attr_counterexample :
    MediaInfo.eval_numeric false (some sampleMedia) "rule" "valid" "1"
      = ([], .ok true) := by decide

/-- Claim C3 (amended): for every attribute name that is not among the
`MediaInfo` *instance attributes* (`self.__dict__` — the code's actual
recognised set, which also contains non-numeric fields such as `valid` and
`path`), `eval_numeric` prints a diagnostic naming both the rule and the
attribute and raises; the exception object itself carries the value
expression, not the rule or attribute name. -/
theorem unknown_attr_raises (vb : Bool) (m : MediaInfo) (rulename pred value : String)
    (h : m.dictGet pred = none) :
    MediaInfo.eval_numeric vb m rulename pred value
      = (["Error: Rule \"" ++ rulename ++ "\" unknown attribute: " ++ pred ++ " "],
         .error (.valueError value)) := by
  unfold MediaInfo.eval_numeric
  rw [h]

/-- Witness for the amended C3 at a concrete input: `"bitrate"` is not an
instance attribute. -/
theorem unknown_attr_raises_witness :
    MediaInfo.eval_numeric false (some sampleMedia) "rule" "bitrate" "42"
      = (["Error: Rule \"rule\" unknown attribute: bitrate "],
         .error (.valueError "42")) :=
  unknown_attr_raises false (some sampleMedia) "rule" "bitrate" "42" (by decide)

/-- Claim C8 (counterexample): the claim says every value whose syntax is
not one of the three recognised forms fails softly.  The empty value
expression is not of any recognised form, yet `value[0]` raises an
`IndexError` before the soft-failure branch is reached. -/
theorem empty_value_raises_counterexample :
    MediaInfo.eval_numeric false (some sampleMedia) "rule" "fps" ""
      = ([], .error .indexError) := by decide

/-- Claim C8 (amended): for every *nonempty* value expression that contains
no dash, is not purely numeric and does not start with `<` or `>`,
`eval_numeric` prints the diagnostic and returns `False` without raising,
so one malformed value token fails only that predicate.  (The empty string
instead raises `IndexError`; see the counterexample.) -/
theorem unrecognized_value_soft (vb : Bool) (m : MediaInfo) (rulename pred value : String)
    (attr : PyVal) (c : Char) (cs : List Char)
    (hattr : m.dictGet pred = some attr)
    (hval : value.toList = c :: cs)
    (hdash : (c :: cs).contains '-' = false)
    (hnum : pyIsNumeric (c :: cs) = false)
    (hlt : c ≠ '<') (hgt : c ≠ '>') :
    MediaInfo.eval_numeric vb m rulename pred value
      = (["Error: Rule \"" ++ rulename ++ "\" valid value: " ++ value], .ok false) := by
  simp only [MediaInfo.eval_numeric, hattr, hval, hdash, hnum, Bool.false_eq_true, if_false]
  rw [if_neg (fun hc : c = '<' ∨ c = '>' => hc.elim hlt hgt)]

/-- Witness for the amended C8 at a concrete input: the value `"abc"`. -/
theorem unrecognized_value_soft_witness :
    MediaInfo.eval_numeric false (some sampleMedia) "rule" "fps" "abc"
      = (["Error: Rule \"rule\" valid value: abc"], .ok false) :=
  unrecognized_value_soft false (some sampleMedia) "rule" "fps" "abc"
    (.vInt sampleMedia.fps) 'a' ['b', 'c']
    (by decide) (by decide) (by decide) (by decide) (by decide) (by decide)

/-- Claim C7 (counterexample): the claim says the language is `"und"`
*exactly when* the stream line carries no language tag.  An audio line with
the literal tag `(und)` — as real reports produce for unknown languages —
parses to language `"und"` although the tag is present, refuting the
"exactly when" direction. -/
theorem und_tag_counterexample :
    ((MediaInfo.parse_details (fun _ => 0) "f" undProbe).1.map
        (fun d => d.audio.map AudioTrack.lang)) = some ["und"]
    ∧ audio_info ("  Stream #0:1(und): Audio: aac".toList)
        = some { stream := ['1'], lang := some ['u', 'n', 'd'], format := ['a', 'a', 'c'],
                 default := none } :=
  ⟨rfl, rfl⟩

/-- Claim C7 (amended): for well-formed probe text (duration and video
stream both extracted) the parsed audio and subtitle sequences contain one
track per matching stream line, in source order, with length equal to the
number of matching audio resp. subtitle lines; a missing language tag
defaults the language to `"und"`, and conversely a track language of
`"und"` arises only from a missing tag or from a literal `(und)` tag. -/
theorem parse_track_counts (getsize : String → Int) (path output : String)
    (h1 : video_dur output.toList ≠ none) (h2 : video_info output.toList ≠ none) :
    ∃ d : MediaData,
      MediaInfo.parse_details getsize path output = (some d, [])
      ∧ d.audio = audioTracksOf output
      ∧ d.subtitle = subtitleTracksOf output
      ∧ d.audio.length = (probeLines output).countP (fun l => (audio_info l).isSome)
      ∧ d.subtitle.length = (probeLines output).countP (fun l => (subtitle_info l).isSome)
      ∧ (∀ a : AudioMatch, a.lang = none → (mkAudioTrack a).lang = "und")
      ∧ (∀ a : AudioMatch, (mkAudioTrack a).lang = "und" →
          a.lang = none ∨ a.lang = some "und".toList) := by
  obtain ⟨dv, hdv⟩ := Option.ne_none_iff_exists'.mp h1
  obtain ⟨g, hg⟩ := Option.ne_none_iff_exists'.mp h2
  refine ⟨{ path := path,
            vcodec := String.mk g.vcodec,
            stream := String.mk g.stream,
            res_width := (digitsToNat g.width : Int),
            res_height := (digitsToNat g.height : Int),
            runtime := (dv.1 * 3600 + dv.2.1 * 60 + dv.2.2 : Int),
            filesize_mb := (getsize path : Rat) / (1024 * 1024),
            fps := (digitsToNat g.fps : Int),
            colorspace := String.mk g.colorspace,
            audio := audioTracksOf output,
            subtitle := subtitleTracksOf output }, ?_, rfl, rfl, ?_, ?_, ?_, ?_⟩
  · unfold MediaInfo.parse_details
    rw [hdv, hg]
  · exact length_filterMap_opt audio_info mkAudioTrack (probeLines output)
  · exact length_filterMap_opt subtitle_info mkSubtitleTrack (probeLines output)
  · intro a ha
    simp [mkAudioTrack, ha]
  · intro a ha
    cases hl : a.lang with
    | none => exact Or.inl rfl
    | some lg =>
      refine Or.inr ?_
      simp only [mkAudioTrack, hl] at ha
      exact congrArg some (congrArg String.data ha)

/-- Witness for the amended C7 at the concrete well-formed report
`wfProbe` (two audio lines, one subtitle line). -/
theorem parse_track_counts_witness :
    ∃ d : MediaData,
      MediaInfo.parse_details (fun _ => 0) "f" wfProbe = (some d, [])
      ∧ d.audio = audioTracksOf wfProbe
      ∧ d.subtitle = subtitleTracksOf wfProbe
      ∧ d.audio.length = (probeLines wfProbe).countP (fun l => (audio_info l).isSome)
      ∧ d.subtitle.length = (probeLines wfProbe).countP (fun l => (subtitle_info l).isSome)
      ∧ (∀ a : AudioMatch, a.lang = none → (mkAudioTrack a).lang = "und")
      ∧ (∀ a : AudioMatch, (mkAudioTrack a).lang = "und" →
          a.lang = none ∨ a.lang = some "und".toList) :=
  parse_track_counts (fun _ => 0) "f" wfProbe (by decide) (by decide)

/-- Claim C9 (counterexample): the claim says the parsed track sequences
never contain two tracks with the same stream index, for *every* raw probe
text.  The parser does not deduplicate: a report with two audio lines both
numbered `#0:1` parses to two audio tracks with the same index `"1"`. -/
theorem duplicate_ids_counterexample :
    ((MediaInfo.parse_details (fun _ => 0) "f" dupProbe).1.map
        (fun d => d.audio.map AudioTrack.track)) = some ["1", "1"]
    ∧ ¬ (["1", "1"] : List String).Nodup :=
  ⟨rfl, by decide⟩

/-- Claim C9 (amended): the parser copies the stream index of each matching
line into the corresponding track, so the parsed audio and subtitle
sequences carry duplicate-free indices whenever the matching lines of the
input do (as conforming reports do) — but nothing deduplicates them. -/
theorem parse_nodup_ids (getsize : String → Int) (path output : String) (d : MediaData)
    (hparse : (MediaInfo.parse_details getsize path output).1 = some d)
    (hA : ((probeLines output).filterMap
            (fun l => (audio_info l).map (fun a => String.mk a.stream))).Nodup)
    (hS : ((probeLines output).filterMap
            (fun l => (subtitle_info l).map (fun s => String.mk s.1))).Nodup) :
    (d.audio.map AudioTrack.track).Nodup ∧ (d.subtitle.map SubtitleTrack.track).Nodup := by
  cases hdv : video_dur output.toList with
  | none =>
    unfold MediaInfo.parse_details at hparse
    rw [hdv] at hparse
    simp at hparse
  | some dv =>
    cases hg : video_info output.toList with
    | none =>
      unfold MediaInfo.parse_details at hparse
      rw [hdv, hg] at hparse
      simp at hparse
    | some g =>
      unfold MediaInfo.parse_details at hparse
      rw [hdv, hg] at hparse
      have hd := Option.some.inj hparse
      constructor
      · rw [← hd]
        show (((probeLines output).filterMap
            (fun l => (audio_info l).map mkAudioTrack)).map AudioTrack.track).Nodup
        rw [map_filterMap_opt]
        exact hA
      · rw [← hd]
        show (((probeLines output).filterMap
            (fun l => (subtitle_info l).map mkSubtitleTrack)).map SubtitleTrack.track).Nodup
        rw [map_filterMap_opt]
        exact hS

/-- Witness for the amended C9 at the concrete report `wfProbe`, whose
stream lines carry the distinct indices 1, 2 (audio) and 3 (subtitle). -/
theorem parse_nodup_ids_witness :
    (wfParsed.audio.map AudioTrack.track).Nodup
    ∧ (wfParsed.subtitle.map SubtitleTrack.track).Nodup :=
  parse_nodup_ids (fun _ => 0) "f" wfProbe wfParsed rfl (by decide) (by decide)

end Transcoder

